import Mathlib

/-!
Verification development for the go-broadcast/broadcast library.

The Go sources are shallowly embedded as pure Lean functions:

* `subscription.go` : `Subscription` (the xid identifier is modelled as a
  `Nat`; the code only ever compares ids for equality, and the delivery
  callback is modelled as an opaque `Nat` tag).
* `room.go` : `room` with `addSubscription` / `removeSubscription`; the Go
  `map[string]*Subscription` keyed by id is modelled as a list of
  subscriptions looked up by id.
* `broadcaster.go` : the `broadcaster` registry (`map[string]*room`
  modelled as an association list), `Subscribe`, `Unsubscribe`,
  `JoinRoom`, `RoomsOf`, `isInRooms`, `toAllLocal`, `toRoomLocal`, the
  functional options and `New`.  Payload data is modelled as a `Nat` tag.
* `pool.go` : the worker pool as a step relation on an abstract state
  tracking live workers and the contents of the `tickets` channel.

Mutexes vanish in the sequential embedding, with one deliberate
exception: `toAllLocal` reports in `muxReadLocksHeld` how many read
locks on the registry mutex are still held when it returns, because the
Go code has an early-return path that skips `RUnlock`.
-/

namespace Broadcast

/-- Subscription from subscription.go: an identifier plus a delivery
callback.  Ids are opaque strings produced by xid in Go and compared
only for equality; they are modelled as naturals.  The callback function
value is modelled as an opaque tag. -/
structure Subscription where
  id : Nat
  callback : Nat
deriving DecidableEq, Repr

/-- room from room.go: the member registry, a Go map from subscription id
to subscription reference, modelled as a list looked up by id. -/
structure room where
  subscriptions : List Subscription
deriving DecidableEq, Repr

/-- Go map lookup r.subscriptions[id]: the member with the given id, if
present. -/
def room.lookup (r : room) (id : Nat) : Option Subscription :=
  r.subscriptions.find? (fun t => t.id == id)

/-- addSubscription from room.go: if a member with the same id already
exists, return leaving it untouched; otherwise store the subscription. -/
def room.addSubscription (r : room) (sub : Subscription) : room :=
  match r.lookup sub.id with
  | some _ => r
  | none => ⟨r.subscriptions ++ [sub]⟩

/-- removeSubscription from room.go: delete the member with the given id
(no-op when absent). -/
def room.removeSubscription (r : room) (sub : Subscription) : room :=
  ⟨r.subscriptions.filter (fun t => !(t.id == sub.id))⟩

/-- broadcaster from broadcaster.go.  The pool is represented by its
configuration (ticket-channel capacity and idle timeout); the dispatcher
is an opaque tag (default noopDispatcher); nextId is the oracle behind
xid.New(), handing out one fresh id per Subscribe call. -/
structure broadcaster where
  poolCap : Nat
  poolTimeout : Int
  dispatcherTag : Nat
  defaultRoomName : String
  rooms : List (String × room)
  nextId : Nat
deriving DecidableEq, Repr

/-- Registry lookup b.rooms[name]. -/
def broadcaster.lookupRoom (b : broadcaster) (name : String) : Option room :=
  (b.rooms.find? (fun p => p.1 == name)).map (fun p => p.2)

/-- Store a room under a name in an association list: overwrite the
existing binding, or append a new one. -/
def setEntry (l : List (String × room)) (name : String) (r : room) :
    List (String × room) :=
  if l.any (fun p => p.1 == name) then
    l.map (fun p => if p.1 == name then (name, r) else p)
  else
    l ++ [(name, r)]

/-- Store a room under a name in the registry.  This models both the
in-place mutation of an existing room through its pointer and the
b.rooms[r] = newRoom write in JoinRoom. -/
def broadcaster.setRoom (b : broadcaster) (name : String) (r : room) : broadcaster :=
  { b with rooms := setEntry b.rooms name r }

/-- One iteration of the loop in JoinRoom (broadcaster.go): look the room
up, lazily create it when absent, then addSubscription. -/
def broadcaster.joinOne (b : broadcaster) (sub : Subscription) (name : String) : broadcaster :=
  match b.lookupRoom name with
  | some existingRoom => b.setRoom name (existingRoom.addSubscription sub)
  | none => b.setRoom name ((room.mk []).addSubscription sub)

/-- JoinRoom from broadcaster.go: add the subscription to each named
room, creating rooms lazily. -/
def broadcaster.JoinRoom (b : broadcaster) (sub : Subscription) (rooms : List String) : broadcaster :=
  rooms.foldl (fun acc r => acc.joinOne sub r) b

/-- Subscribe from broadcaster.go: allocate a Subscription with a fresh
id (xid.New() modelled by the nextId counter) and the given callback,
join it to the default room, return it. -/
def broadcaster.Subscribe (b : broadcaster) (callback : Nat) : broadcaster × Subscription :=
  let sub : Subscription := ⟨b.nextId, callback⟩
  let b1 : broadcaster := { b with nextId := b.nextId + 1 }
  (b1.JoinRoom sub [b1.defaultRoomName], sub)

/-- Unsubscribe from broadcaster.go: remove the subscription from every
room in the registry. -/
def broadcaster.Unsubscribe (b : broadcaster) (s : Subscription) : broadcaster :=
  { b with rooms := b.rooms.map (fun p => (p.1, p.2.removeSubscription s)) }

/-- LeaveRoom from broadcaster.go: remove the subscription from each
named room that exists. -/
def broadcaster.LeaveRoom (b : broadcaster) (sub : Subscription) (names : List String) : broadcaster :=
  { b with rooms := b.rooms.map (fun p =>
      if names.any (fun n => n == p.1) then (p.1, p.2.removeSubscription sub) else p) }

/-- RoomsOf from broadcaster.go: the names of the rooms whose member map
contains the id of the subscription. -/
def broadcaster.RoomsOf (b : broadcaster) (s : Subscription) : List String :=
  (b.rooms.filter (fun p => (p.2.lookup s.id).isSome)).map (fun p => p.1)

/-- isInRooms from broadcaster.go: whether the subscription is a member
of any of the named rooms; a name bound to no room is skipped, and the
scan stops at the first room containing the id (List.any
short-circuits exactly like the Go loop). -/
def broadcaster.isInRooms (b : broadcaster) (sub : Subscription) (rooms : List String) : Bool :=
  rooms.any (fun name =>
    match b.lookupRoom name with
    | none => false
    | some r => (r.lookup sub.id).isSome)

/-- Outcome of one local fan-out call: the subscriptions for which a
task was handed to pool.Do (one per member of the resolved room, in
iteration order), and the number of read locks on the registry mutex
b.mux still held when the function returns. -/
structure FanoutResult where
  tasksSubmitted : List Subscription
  muxReadLocksHeld : Nat
deriving DecidableEq, Repr

/-- toAllLocal from broadcaster.go.  The function takes b.mux.RLock,
looks up the default room and, when the room is missing, returns at once
WITHOUT calling b.mux.RUnlock, so on that path one read lock stays held
(muxReadLocksHeld = 1).  On the normal path it releases the registry
lock, takes the room read lock, and submits one pool.Do task per member
of the default room (the body of each task is deliveryTask below);
all locks are released. -/
def broadcaster.toAllLocal (b : broadcaster) : FanoutResult :=
  match b.lookupRoom b.defaultRoomName with
  | none => ⟨[], 1⟩
  | some defaultRoom => ⟨defaultRoom.subscriptions, 0⟩

/-- toRoomLocal from broadcaster.go: resolve the named room under the
registry read lock (released by defer on every path), and submit one
pool.Do task per member. -/
def broadcaster.toRoomLocal (b : broadcaster) (name : String) : FanoutResult :=
  match b.lookupRoom name with
  | none => ⟨[], 0⟩
  | some existingRoom => ⟨existingRoom.subscriptions, 0⟩

/-- Body of the closure submitted to pool.Do for the member s (shared by
toAllLocal and toRoomLocal): first isInRooms is checked against the
except list and, when it holds, the task returns without sending;
otherwise s.send(data) runs, invoking the callback of s with the
payload.  The result records the performed delivery, if any. -/
def broadcaster.deliveryTask (b : broadcaster) (data : Nat) (s : Subscription)
    (except : List String) : Option (Subscription × Nat) :=
  if b.isInRooms s except then none
  else some (s, data)

/-- The deliveries actually performed by ToAll(data, except...): the
submitted tasks of toAllLocal, each run through deliveryTask. -/
def broadcaster.toAllDeliveries (b : broadcaster) (data : Nat) (except : List String) :
    List (Subscription × Nat) :=
  (b.toAllLocal).tasksSubmitted.filterMap (fun s => b.deliveryTask data s except)

/-- The deliveries actually performed by ToRoom(data, name, except...). -/
def broadcaster.toRoomDeliveries (b : broadcaster) (data : Nat) (name : String)
    (except : List String) : List (Subscription × Nat) :=
  (b.toRoomLocal name).tasksSubmitted.filterMap (fun s => b.deliveryTask data s except)

/-- Go sync.RWMutex: Lock() (the writer side) can proceed only when no
reader holds the lock. -/
def rwMutexCanLock (readers : Nat) : Bool := readers == 0

/-- defaultPoolSize from pool.go. -/
def defaultPoolSize : Nat := 100

/-- defaultPoolTimeout from pool.go: five minutes, in nanoseconds. -/
def defaultPoolTimeout : Int := 300000000000

/-- The broadcaster value New builds before applying any option
(broadcaster.go): default pool, empty registry, noop dispatcher, default
room name "default". -/
def initialBroadcaster : broadcaster :=
  { poolCap := defaultPoolSize
    poolTimeout := defaultPoolTimeout
    dispatcherTag := 0
    defaultRoomName := "default"
    rooms := []
    nextId := 0 }

/-- The functional options of broadcaster.go.  The Go type is named
Option; it is renamed BOption here because Option is taken by the Lean
core.  The dispatcher argument of WithDispatcher is an opaque tag. -/
inductive BOption where
  | withPoolSize (size : Int)
  | withPoolTimeout (timeout : Int)
  | withDispatcher (d : Nat)
  | withDefaultRoomName (name : String)
deriving DecidableEq, Repr

/-- Application of one option to the broadcaster under construction:
WithPoolSize rejects size <= 0, WithDefaultRoomName rejects the empty
name, the other two always succeed (broadcaster.go). -/
def applyOption (b : broadcaster) : BOption → Except String broadcaster
  | .withPoolSize size =>
      if size ≤ 0 then .error "pool size must be positive"
      else .ok { b with poolCap := size.toNat }
  | .withPoolTimeout t => .ok { b with poolTimeout := t }
  | .withDispatcher d => .ok { b with dispatcherTag := d }
  | .withDefaultRoomName name =>
      if name.length == 0 then .error "default room name cannot be empty"
      else .ok { b with defaultRoomName := name }

/-- The option loop of New: apply each option in order, aborting with
the first error. -/
def applyOptions : broadcaster → List BOption → Except String broadcaster
  | b, [] => .ok b
  | b, o :: rest =>
    match applyOption b o with
    | .error e => .error e
    | .ok b1 => applyOptions b1 rest

/-- New from broadcaster.go: build the default broadcaster, run the
option loop, return the instance or the first configuration error. -/
def New (options : List BOption) : Except String broadcaster :=
  applyOptions initialBroadcaster options

/-- The condition under which an option is accepted, read off the spec:
pool size must be positive and the default room name non-empty; the
timeout and dispatcher options are always valid. -/
def validOption : BOption → Bool
  | .withPoolSize size => decide (0 < size)
  | .withDefaultRoomName name => name.length != 0
  | _ => true

/-- The error message applyOption reports for an invalid option (and ""
for options that cannot fail). -/
def optionError : BOption → String
  | .withPoolSize _ => "pool size must be positive"
  | .withDefaultRoomName _ => "default room name cannot be empty"
  | _ => ""

/-- Every id stored anywhere in the registry is below the fresh-id
counter: the invariant the xid oracle maintains across operations. -/
def idsFresh (b : broadcaster) : Bool :=
  b.rooms.all (fun p => p.2.subscriptions.all (fun t => t.id < b.nextId))

/-- The subscription used in the concrete fan-out scenarios below. -/
def subC2 : Subscription := ⟨0, 0⟩

/-- A broadcaster whose default room and room "x" both contain subC2,
so that except = ["x"] excludes the only member of the default room. -/
def bC2 : broadcaster :=
  { initialBroadcaster with
      rooms := [("default", room.mk [subC2]), ("x", room.mk [subC2])] }

/-!
The worker pool of pool.go, as a transition system.

The state abstracts the Go runtime state as follows.  `tickets` is a
buffered channel of capacity c.  A struct enters the channel in exactly
two places: the spawn branch of `do` (one send immediately before the
new worker goroutine starts) and the fill loop of `cancel` (c sends).
A struct leaves the channel in exactly one place: the `<-p.tickets` a
spawned goroutine performs right after its `worker` call returns.  So a
live worker is a spawn whose closing receive has not yet happened, and
the number of structs in the channel is always

    liveWorkers + cancelSends - (closing receives already matched) ...

which, bookkeeping each worker against the ticket its spawn put in,
equals `liveWorkers + cancelSends`.  A send on the channel is enabled
exactly when it holds fewer than c structs.
-/

/-- Abstract state of a pool (pool.go): whether cancelc has been closed,
the number of live workers (spawned goroutines that have not yet
performed their closing receive on tickets), and the number of sends the
fill loop of cancel has completed so far. -/
structure PoolState where
  cancelled : Bool
  liveWorkers : Nat
  cancelSends : Nat
deriving DecidableEq, Repr

/-- Number of structs currently buffered in the tickets channel (see the
accounting argument above). -/
def PoolState.ticketsLen (s : PoolState) : Nat := s.liveWorkers + s.cancelSends

/-- The pool right after construction: cancelc open, no workers, cancel
not running. -/
def initPool : PoolState := ⟨false, 0, 0⟩

/-- One atomic step of the pool (pool.go), with capacity c = cap(p.tickets).

* spawn: the tickets case of the select in `do` fires — enabled exactly
  when the channel is not full; a new worker goroutine starts.  (After
  close(cancelc) the select may still take this case, so it is not
  guarded by cancelled.)
* handoff: the `p.tasks <- task` case fires — possible only when some
  live worker is receiving on tasks; no worker count change.
* dropCancelled: the `<-p.cancelc` case fires; the task is dropped.
* workerExit: a worker returns (idle timeout or cancel signal) and its
  goroutine performs the closing `<-p.tickets`.
* cancelSignal: cancel() executes close(p.cancelc).
* cancelSend: one iteration of the fill loop in cancel() completes —
  enabled exactly when the channel is not full. -/
inductive PoolStep (c : Nat) : PoolState → PoolState → Prop where
  | spawn (s : PoolState) :
      s.ticketsLen < c → PoolStep c s { s with liveWorkers := s.liveWorkers + 1 }
  | handoff (s : PoolState) :
      0 < s.liveWorkers → PoolStep c s s
  | dropCancelled (s : PoolState) :
      s.cancelled = true → PoolStep c s s
  | workerExit (s : PoolState) :
      0 < s.liveWorkers → PoolStep c s { s with liveWorkers := s.liveWorkers - 1 }
  | cancelSignal (s : PoolState) :
      s.cancelled = false → PoolStep c s { s with cancelled := true }
  | cancelSend (s : PoolState) :
      s.cancelled = true → s.ticketsLen < c →
      PoolStep c s { s with cancelSends := s.cancelSends + 1 }

/-- The states a pool with capacity c can reach from construction under
any interleaving of submissions, worker steps, timeouts and
cancellation. -/
def PoolReachable (c : Nat) (s : PoolState) : Prop :=
  Relation.ReflTransGen (PoolStep c) initPool s

/-- Whether, in state s, a `do` call (pool.go) has any branch available
that lets the submitted task start executing: the handoff branch needs a
live worker sitting in its receive, and the spawn branch needs room in
the tickets channel.  When this is false the only branch a `do` can ever
take is the cancelc one, which drops the task. -/
def doCanRunTask (c : Nat) (s : PoolState) : Bool :=
  decide (0 < s.liveWorkers) || decide (s.ticketsLen < c)

/-- Channel invariant: the tickets channel never holds more structs than
its capacity. -/
lemma ticketsLen_le_of_reachable {c : Nat} {s : PoolState}
    (h : PoolReachable c s) : s.ticketsLen ≤ c := by
  induction h with
  | refl => simp [initPool, PoolState.ticketsLen]
  | tail _ hstep ih =>
    cases hstep with
    | spawn ht =>
      simp only [PoolState.ticketsLen] at ht ⊢
      omega
    | handoff ht => exact ih
    | dropCancelled ht => exact ih
    | workerExit ht =>
      simp only [PoolState.ticketsLen] at ih ⊢
      omega
    | cancelSignal ht => simpa [PoolState.ticketsLen] using ih
    | cancelSend ht hlen =>
      simp only [PoolState.ticketsLen] at hlen ⊢
      omega

/-- Only the fill loop of cancel sends once cancelc is closed, so a
positive cancelSends count certifies cancellation, and cancellation is
never undone. -/
lemma cancelled_of_cancelSends_pos {c : Nat} {s : PoolState}
    (h : PoolReachable c s) (hpos : 0 < s.cancelSends) : s.cancelled = true := by
  induction h with
  | refl => simp [initPool] at hpos
  | tail _ hstep ih =>
    cases hstep with
    | spawn ht => exact ih hpos
    | handoff ht => exact ih hpos
    | dropCancelled ht => exact ih hpos
    | workerExit ht => exact ih hpos
    | cancelSignal ht => rfl
    | cancelSend ht hlen => exact ht

/-- C3: in every reachable state of a pool with ticket capacity c, the
number of live workers is at most c — a worker is spawned only behind a
ticket-channel send, so the ceiling is never exceeded. -/
theorem pool_liveWorkers_le_capacity (c : Nat) (s : PoolState)
    (h : PoolReachable c s) : s.liveWorkers ≤ c :=
  le_trans (Nat.le_add_right s.liveWorkers s.cancelSends) (ticketsLen_le_of_reachable h)

/-- Witness for pool_liveWorkers_le_capacity: the capacity-1 pool state
with one live worker, reached by a single spawn, satisfies the bound. -/
theorem pool_liveWorkers_le_capacity_witness :
    PoolReachable 1 ⟨false, 1, 0⟩ ∧ (PoolState.mk false 1 0).liveWorkers ≤ 1 := by
  have hreach : PoolReachable 1 ⟨false, 1, 0⟩ :=
    Relation.ReflTransGen.single
      (show PoolStep 1 initPool { initPool with liveWorkers := initPool.liveWorkers + 1 } from
        PoolStep.spawn initPool (by simp [initPool, PoolState.ticketsLen]))
  exact ⟨hreach, pool_liveWorkers_le_capacity 1 ⟨false, 1, 0⟩ hreach⟩

/-- C4: in every reachable state in which the fill loop of cancel() has
completed all c sends — that is, cancel() has returned — no live worker
remains, cancellation is in force, and a do() call has no branch that
could start the submitted task: the task can only be dropped, silently. -/
theorem pool_cancel_drains (c : Nat) (s : PoolState) (hc : 0 < c)
    (h : PoolReachable c s) (hdone : s.cancelSends = c) :
    s.liveWorkers = 0 ∧ s.cancelled = true ∧ doCanRunTask c s = false := by
  have hlen := ticketsLen_le_of_reachable h
  simp only [PoolState.ticketsLen] at hlen
  have hlive : s.liveWorkers = 0 := by omega
  refine ⟨hlive, cancelled_of_cancelSends_pos h (by omega), ?_⟩
  simp [doCanRunTask, PoolState.ticketsLen, hlive, hdone]

/-- Witness for pool_cancel_drains: the capacity-1 pool state reached by
closing cancelc and completing the single fill-loop send has no live
worker and cannot start any further task. -/
theorem pool_cancel_drains_witness :
    (0 < 1 ∧ PoolReachable 1 ⟨true, 0, 1⟩ ∧ (1 : Nat) = 1) ∧
      ((PoolState.mk true 0 1).liveWorkers = 0 ∧
        (PoolState.mk true 0 1).cancelled = true ∧ doCanRunTask 1 ⟨true, 0, 1⟩ = false) := by
  have h1 : PoolStep 1 initPool ⟨true, 0, 0⟩ :=
    PoolStep.cancelSignal initPool rfl
  have h2 : PoolStep 1 ⟨true, 0, 0⟩ ⟨true, 0, 1⟩ :=
    PoolStep.cancelSend ⟨true, 0, 0⟩ rfl (by simp [PoolState.ticketsLen])
  have hreach : PoolReachable 1 ⟨true, 0, 1⟩ :=
    Relation.ReflTransGen.tail (Relation.ReflTransGen.single h1) h2
  exact ⟨⟨Nat.one_pos, hreach, rfl⟩, pool_cancel_drains 1 ⟨true, 0, 1⟩ Nat.one_pos hreach rfl⟩

/-- An option accepted by validOption is applied without error,
whatever the broadcaster under construction looks like. -/
lemma applyOption_of_valid (b : broadcaster) {o : BOption} (h : validOption o = true) :
    ∃ b1, applyOption b o = Except.ok b1 := by
  cases o with
  | withPoolSize size =>
    simp only [validOption, decide_eq_true_eq] at h
    exact ⟨{ b with poolCap := size.toNat }, by simp [applyOption, not_le.mpr h]⟩
  | withPoolTimeout t => exact ⟨_, rfl⟩
  | withDispatcher d => exact ⟨_, rfl⟩
  | withDefaultRoomName name =>
    simp only [validOption, bne_iff_ne, ne_eq] at h
    exact ⟨{ b with defaultRoomName := name }, by simp [applyOption, h]⟩

/-- An option rejected by validOption makes applyOption fail with its
message, whatever the broadcaster under construction looks like. -/
lemma applyOption_of_invalid (b : broadcaster) {o : BOption} (h : validOption o = false) :
    applyOption b o = Except.error (optionError o) := by
  cases o with
  | withPoolSize size =>
    simp only [validOption, decide_eq_false_iff_not, not_lt] at h
    simp [applyOption, optionError, h]
  | withPoolTimeout t => simp [validOption] at h
  | withDispatcher d => simp [validOption] at h
  | withDefaultRoomName name =>
    simp only [validOption, bne_eq_false_iff_eq] at h
    simp [applyOption, optionError, h]

/-- The option loop succeeds exactly when every option is valid, and
stops at the first invalid option with its error. -/
lemma applyOptions_spec (opts : List BOption) (b : broadcaster) :
    ((∃ b2, applyOptions b opts = Except.ok b2) ↔ opts.all validOption = true) ∧
    (∀ o, opts.find? (fun x => !(validOption x)) = some o →
      applyOptions b opts = Except.error (optionError o)) := by
  induction opts generalizing b with
  | nil => simp [applyOptions]
  | cons o rest ih =>
    cases hv : validOption o with
    | true =>
      obtain ⟨b1, hb1⟩ := applyOption_of_valid b hv
      constructor
      · simpa [applyOptions, hb1, hv] using (ih b1).1
      · intro o2 ho2
        simp only [List.find?_cons, hv, Bool.not_true] at ho2
        simpa [applyOptions, hb1] using (ih b1).2 o2 ho2
    | false =>
      have hb1 := applyOption_of_invalid b hv
      constructor
      · simp [applyOptions, hb1, hv]
      · intro o2 ho2
        simp only [List.find?_cons, hv, Bool.not_false] at ho2
        simp only [applyOptions, hb1]
        cases ho2
        rfl

/-- C6: construction fails exactly when some supplied option is invalid
(pool size at most 0, or empty default room name); the first invalid
option aborts construction with its error, and a configuration whose
options are all valid always yields a broadcaster. -/
theorem New_ok_iff_options_valid (opts : List BOption) :
    ((∃ b, New opts = Except.ok b) ↔ opts.all validOption = true) ∧
    (∀ o, opts.find? (fun x => !(validOption x)) = some o →
      New opts = Except.error (optionError o)) :=
  applyOptions_spec opts initialBroadcaster

/-- Witness for New_ok_iff_options_valid: a configuration whose second
option carries pool size -1 aborts with the pool-size error, and an
all-valid configuration succeeds. -/
theorem New_ok_iff_options_valid_witness :
    (List.find? (fun x => !(validOption x))
        [BOption.withPoolTimeout 3, BOption.withPoolSize (-1)] =
      some (BOption.withPoolSize (-1))) ∧
    New [BOption.withPoolTimeout 3, BOption.withPoolSize (-1)] =
      Except.error "pool size must be positive" ∧
    ([BOption.withPoolSize 30, BOption.withDefaultRoomName "lobby"].all validOption = true ∧
      ∃ b, New [BOption.withPoolSize 30, BOption.withDefaultRoomName "lobby"] = Except.ok b) := by
  refine ⟨by decide, ?_, by decide, ?_⟩
  · exact (New_ok_iff_options_valid [BOption.withPoolTimeout 3, BOption.withPoolSize (-1)]).2
      (BOption.withPoolSize (-1)) (by decide)
  · exact (New_ok_iff_options_valid
      [BOption.withPoolSize 30, BOption.withDefaultRoomName "lobby"]).1.mpr (by decide)

/-- C5 evidence: on a broadcaster fresh from New (no Subscribe or
JoinRoom has created the default room yet), toAllLocal submits no task
and raises nothing, but returns with one read lock on the registry
mutex still held — the missing-room early return skips b.mux.RUnlock —
so a subsequent write-lock acquisition (the b.mux.Lock inside JoinRoom
creating a room, hence any later Subscribe) can never proceed. -/
theorem toAllLocal_missing_room_leaks_read_lock :
    initialBroadcaster.lookupRoom initialBroadcaster.defaultRoomName = none ∧
    (initialBroadcaster.toAllLocal).tasksSubmitted = [] ∧
    (initialBroadcaster.toAllLocal).muxReadLocksHeld = 1 ∧
    rwMutexCanLock (initialBroadcaster.toAllLocal).muxReadLocksHeld = false :=
  ⟨rfl, rfl, rfl, rfl⟩

/-- Inserting an id that is already present leaves the room untouched. -/
lemma room.addSubscription_of_mem {r : room} {sub : Subscription}
    (h : (r.lookup sub.id).isSome = true) : r.addSubscription sub = r := by
  obtain ⟨t, ht⟩ := Option.isSome_iff_exists.mp h
  unfold room.addSubscription
  rw [ht]

/-- After addSubscription the id of the inserted subscription is
present. -/
lemma room.lookup_addSubscription_self (r : room) (sub : Subscription) :
    ((r.addSubscription sub).lookup sub.id).isSome = true := by
  unfold room.addSubscription
  cases h : r.lookup sub.id with
  | some t => rw [h]; rfl
  | none =>
    unfold room.lookup at h ⊢
    simp [List.find?_append, h, List.find?_cons]

/-- Overwriting the binding of a name makes its entry the one found
under that name (when the name was bound). -/
lemma find?_map_overwrite (name : String) (r : room) :
    ∀ (l : List (String × room)), l.any (fun p => p.1 == name) = true →
      (l.map (fun p => if p.1 == name then (name, r) else p)).find? (fun p => p.1 == name)
        = some (name, r)
  | [], h => by simp at h
  | p :: t, h => by
      cases hpb : (p.1 == name) with
      | true =>
        have hp : p.1 = name := by simpa using hpb
        simp [List.find?_cons, hp]
      | false =>
        have ht : t.any (fun p => p.1 == name) = true := by
          simp only [List.any_cons, hpb, Bool.false_or] at h
          exact h
        have hif : (if p.1 == name then (name, r) else p) = p := by
          rw [if_neg]
          simp [hpb]
        rw [List.map_cons, hif, List.find?_cons_of_neg _ (by simp [hpb]),
          find?_map_overwrite name r t ht]

/-- Appending a binding for an unbound name makes its entry the one
found under that name. -/
lemma find?_append_overwrite (l : List (String × room)) (name : String) (r : room)
    (h : l.any (fun p => p.1 == name) = false) :
    (l ++ [(name, r)]).find? (fun p => p.1 == name) = some (name, r) := by
  have hnone : l.find? (fun p => p.1 == name) = none :=
    List.find?_eq_none.mpr (fun x hx => by
      have hb := List.any_eq_false.mp h x hx
      simpa using hb)
  simp [List.find?_append, hnone, List.find?_cons]

/-- Two successive overwrites of the same name collapse to the second
one. -/
lemma map_overwrite_overwrite (l : List (String × room)) (name : String) (r r2 : room) :
    (l.map (fun p => if p.1 == name then (name, r) else p)).map
        (fun p => if p.1 == name then (name, r2) else p)
      = l.map (fun p => if p.1 == name then (name, r2) else p) := by
  rw [List.map_map]
  refine List.map_congr_left ?_
  intro p _
  cases hpb : (p.1 == name) with
  | true =>
    have hp : p.1 = name := by simpa using hpb
    simp [Function.comp, hp]
  | false => simp [Function.comp, hpb]

/-- Overwriting a name bound nowhere changes nothing. -/
lemma map_overwrite_of_unbound (l : List (String × room)) (name : String) (r : room)
    (h : l.any (fun p => p.1 == name) = false) :
    l.map (fun p => if p.1 == name then (name, r) else p) = l := by
  have hall := List.any_eq_false.mp h
  refine (List.map_congr_left ?_).trans (List.map_id l)
  intro p hp
  have hpb : (p.1 == name) = false := by simpa using hall p hp
  simp [hpb]

/-- The entry just stored is the one found. -/
lemma find?_setEntry_self (l : List (String × room)) (name : String) (r : room) :
    (setEntry l name r).find? (fun p => p.1 == name) = some (name, r) := by
  unfold setEntry
  by_cases hany : l.any (fun p => p.1 == name) = true
  · rw [if_pos hany, find?_map_overwrite name r l hany]
  · have hf : l.any (fun p => p.1 == name) = false := Bool.eq_false_iff.mpr hany
    rw [if_neg hany, find?_append_overwrite l name r hf]

/-- Storing twice under the same name at the list level collapses to the
second store. -/
lemma setEntry_setEntry (l : List (String × room)) (name : String) (r r2 : room) :
    setEntry (setEntry l name r) name r2 = setEntry l name r2 := by
  unfold setEntry
  by_cases hany : l.any (fun p => p.1 == name) = true
  · rw [if_pos hany]
    have hany2 : (l.map (fun p => if p.1 == name then (name, r) else p)).any
        (fun p => p.1 == name) = true := by
      obtain ⟨x, hx, hpx⟩ := List.any_eq_true.mp hany
      refine List.any_eq_true.mpr ⟨(name, r), List.mem_map.mpr ⟨x, hx, ?_⟩, by simp⟩
      simp [hpx]
    rw [if_pos hany2, map_overwrite_overwrite, if_pos hany]
  · have hf : l.any (fun p => p.1 == name) = false := Bool.eq_false_iff.mpr hany
    rw [if_neg hany]
    have hany2 : (l ++ [(name, r)]).any (fun p => p.1 == name) = true := by
      simp [List.any_append]
    rw [if_pos hany2, List.map_append, map_overwrite_of_unbound l name r2 hf, if_neg hany]
    simp

/-- Looking up a name right after storing a room under it yields that
room. -/
lemma broadcaster.lookupRoom_setRoom_self (b : broadcaster) (name : String) (r : room) :
    (b.setRoom name r).lookupRoom name = some r := by
  show ((setEntry b.rooms name r).find? (fun p => p.1 == name)).map (fun p => p.2) = some r
  rw [find?_setEntry_self]
  rfl

/-- Storing twice under the same name is the same as storing the second
room once. -/
lemma broadcaster.setRoom_setRoom (b : broadcaster) (name : String) (r r2 : room) :
    (b.setRoom name r).setRoom name r2 = b.setRoom name r2 := by
  show ({ b with rooms := setEntry (setEntry b.rooms name r) name r2 } : broadcaster)
      = { b with rooms := setEntry b.rooms name r2 }
  rw [setEntry_setEntry]

/-- One JoinRoom iteration applied twice for the same room and
subscription equals one application. -/
lemma broadcaster.joinOne_idem (b : broadcaster) (s : Subscription) (name : String) :
    (b.joinOne s name).joinOne s name = b.joinOne s name := by
  unfold broadcaster.joinOne
  cases hb : b.lookupRoom name with
  | some existingRoom =>
    simp only
    rw [broadcaster.lookupRoom_setRoom_self]
    simp only
    rw [room.addSubscription_of_mem (room.lookup_addSubscription_self existingRoom s),
      broadcaster.setRoom_setRoom]
  | none =>
    simp only
    rw [broadcaster.lookupRoom_setRoom_self]
    simp only
    rw [room.addSubscription_of_mem (room.lookup_addSubscription_self (room.mk []) s),
      broadcaster.setRoom_setRoom]

/-- C8: room membership insertion is idempotent by id with first writer
wins — inserting a subscription whose id is present leaves the room,
including the stored callback, untouched — and JoinRoom called twice
with the same subscription and room equals JoinRoom called once. -/
theorem joinRoom_insertion_idempotent :
    (∀ (r : room) (sub : Subscription),
      (r.lookup sub.id).isSome = true → r.addSubscription sub = r) ∧
    (∀ (b : broadcaster) (s : Subscription) (name : String),
      (b.JoinRoom s [name]).JoinRoom s [name] = b.JoinRoom s [name]) := by
  constructor
  · intro r sub h
    exact room.addSubscription_of_mem h
  · intro b s name
    simpa [broadcaster.JoinRoom] using broadcaster.joinOne_idem b s name

/-- Witness for joinRoom_insertion_idempotent: a room already holding id
0 with callback 1 is unchanged by inserting id 0 with callback 9, and a
concrete double join collapses. -/
theorem joinRoom_insertion_idempotent_witness :
    (((room.mk [⟨0, 1⟩]).lookup 0).isSome = true ∧
      (room.mk [⟨0, 1⟩]).addSubscription ⟨0, 9⟩ = room.mk [⟨0, 1⟩]) ∧
    ((initialBroadcaster.JoinRoom ⟨0, 1⟩ ["r"]).JoinRoom ⟨0, 1⟩ ["r"] =
      initialBroadcaster.JoinRoom ⟨0, 1⟩ ["r"]) :=
  ⟨⟨by decide, joinRoom_insertion_idempotent.1 (room.mk [⟨0, 1⟩]) ⟨0, 9⟩ (by decide)⟩,
    joinRoom_insertion_idempotent.2 initialBroadcaster ⟨0, 1⟩ "r"⟩

/-- Removing an id leaves no member with that id. -/
lemma room.lookup_removeSubscription (r : room) (s : Subscription) :
    (r.removeSubscription s).lookup s.id = none := by
  refine List.find?_eq_none.mpr ?_
  intro x hx
  have := (List.mem_filter.mp hx).2
  simpa using this

/-- Removing an id twice equals removing it once. -/
lemma room.removeSubscription_idem (r : room) (s : Subscription) :
    (r.removeSubscription s).removeSubscription s = r.removeSubscription s := by
  unfold room.removeSubscription
  refine congrArg _ (List.filter_eq_self.mpr ?_)
  intro a ha
  exact (List.mem_filter.mp ha).2

/-- C9: Unsubscribe removes the subscription from every room, including
the default room — afterwards RoomsOf is empty and no room in the
registry still holds the id — and a second Unsubscribe of the same
subscription is a no-op: it returns the state unchanged. -/
theorem unsubscribe_removes_from_all_rooms (b : broadcaster) (s : Subscription) :
    (b.Unsubscribe s).RoomsOf s = [] ∧
    ((b.Unsubscribe s).rooms.all (fun p => (p.2.lookup s.id).isNone)) = true ∧
    (b.Unsubscribe s).Unsubscribe s = b.Unsubscribe s := by
  refine ⟨?_, ?_, ?_⟩
  · unfold broadcaster.RoomsOf broadcaster.Unsubscribe
    simp only
    rw [List.filter_eq_nil_iff.mpr ?_]
    · rfl
    · intro p hp
      obtain ⟨q, _, hq⟩ := List.mem_map.mp hp
      subst hq
      simp [room.lookup_removeSubscription]
  · refine List.all_eq_true.mpr ?_
    intro p hp
    obtain ⟨q, _, hq⟩ := List.mem_map.mp hp
    subst hq
    simp [room.lookup_removeSubscription]
  · unfold broadcaster.Unsubscribe
    simp only [List.map_map]
    have h : ((fun p : String × room => (p.1, p.2.removeSubscription s)) ∘
        (fun p : String × room => (p.1, p.2.removeSubscription s))) =
        fun p : String × room => (p.1, p.2.removeSubscription s) := by
      funext p
      simp [Function.comp, room.removeSubscription_idem]
    rw [h]

/-- Witness for unsubscribe_removes_from_all_rooms at a concrete
two-room broadcaster. -/
theorem unsubscribe_removes_from_all_rooms_witness :
    ((initialBroadcaster.JoinRoom ⟨0, 1⟩ ["default", "r"]).Unsubscribe ⟨0, 1⟩).RoomsOf ⟨0, 1⟩
        = [] ∧
    (((initialBroadcaster.JoinRoom ⟨0, 1⟩ ["default", "r"]).Unsubscribe ⟨0, 1⟩).rooms.all
        (fun p => (p.2.lookup (0 : Nat)).isNone)) = true ∧
    ((initialBroadcaster.JoinRoom ⟨0, 1⟩ ["default", "r"]).Unsubscribe ⟨0, 1⟩).Unsubscribe ⟨0, 1⟩
        = (initialBroadcaster.JoinRoom ⟨0, 1⟩ ["default", "r"]).Unsubscribe ⟨0, 1⟩ :=
  unsubscribe_removes_from_all_rooms (initialBroadcaster.JoinRoom ⟨0, 1⟩ ["default", "r"]) ⟨0, 1⟩

/-- Membership in the submitted-task list of toAllLocal. -/
lemma mem_toAllLocal_tasks {b : broadcaster} {s : Subscription} :
    s ∈ (b.toAllLocal).tasksSubmitted ↔
      ∃ dr, b.lookupRoom b.defaultRoomName = some dr ∧ s ∈ dr.subscriptions := by
  unfold broadcaster.toAllLocal
  cases h : b.lookupRoom b.defaultRoomName with
  | none => simp
  | some dr => simp

/-- Membership in the submitted-task list of toRoomLocal. -/
lemma mem_toRoomLocal_tasks {b : broadcaster} {name : String} {s : Subscription} :
    s ∈ (b.toRoomLocal name).tasksSubmitted ↔
      ∃ r, b.lookupRoom name = some r ∧ s ∈ r.subscriptions := by
  unfold broadcaster.toRoomLocal
  cases h : b.lookupRoom name with
  | none => simp
  | some r => simp

/-- The isInRooms test holds exactly when some named room exists and has
a member with the same id. -/
lemma isInRooms_iff {b : broadcaster} {s : Subscription} {names : List String} :
    b.isInRooms s names = true ↔
      ∃ name ∈ names, ∃ r, b.lookupRoom name = some r ∧
        ∃ t ∈ r.subscriptions, t.id = s.id := by
  unfold broadcaster.isInRooms
  rw [List.any_eq_true]
  refine exists_congr (fun name => and_congr_right (fun _ => ?_))
  cases h : b.lookupRoom name with
  | none => simp
  | some r => simp [room.lookup]

/-- C1: toAll delivers the payload to exactly those members of the
default room that are not members of any existing room named in the
except list; except names that name no room exclude nobody, and when the
default room is missing nobody is a member, so nobody receives. -/
theorem toAll_delivers_exactly (b : broadcaster) (data : Nat) (except : List String)
    (s : Subscription) (d : Nat) :
    (s, d) ∈ b.toAllDeliveries data except ↔
      (d = data ∧
        (∃ dr, b.lookupRoom b.defaultRoomName = some dr ∧ s ∈ dr.subscriptions) ∧
        ¬ ∃ name ∈ except, ∃ r, b.lookupRoom name = some r ∧
            ∃ t ∈ r.subscriptions, t.id = s.id) := by
  unfold broadcaster.toAllDeliveries
  rw [List.mem_filterMap]
  constructor
  · rintro ⟨a, ha, hda⟩
    unfold broadcaster.deliveryTask at hda
    by_cases hex : b.isInRooms a except = true
    · rw [if_pos hex] at hda
      simp at hda
    · rw [if_neg hex] at hda
      obtain ⟨rfl, rfl⟩ : a = s ∧ data = d := by simpa using hda
      refine ⟨rfl, mem_toAllLocal_tasks.mp ha, ?_⟩
      rw [← isInRooms_iff]
      exact hex
  · rintro ⟨rfl, hmem, hnot⟩
    refine ⟨s, mem_toAllLocal_tasks.mpr hmem, ?_⟩
    have hex : ¬ b.isInRooms s except = true := fun hex => hnot (isInRooms_iff.mp hex)
    unfold broadcaster.deliveryTask
    rw [if_neg hex]

/-- Witness for toAll_delivers_exactly: in the concrete broadcaster
bC2 with an empty except list, the sole default-room member receives. -/
theorem toAll_delivers_exactly_witness :
    (subC2, 5) ∈ bC2.toAllDeliveries 5 [] ↔
      ((5 : Nat) = 5 ∧
        (∃ dr, bC2.lookupRoom bC2.defaultRoomName = some dr ∧ subC2 ∈ dr.subscriptions) ∧
        ¬ ∃ name ∈ ([] : List String), ∃ r, bC2.lookupRoom name = some r ∧
            ∃ t ∈ r.subscriptions, t.id = subC2.id) :=
  toAll_delivers_exactly bC2 5 [] subC2 5

/-- C2 counterexample: with except = ["x"] the sole member of the
default room of bC2 is excluded, yet toAllLocal still submits one
pool.Do task for it and the task delivers nothing — contradicting the
claim that an excluded member causes no task submission at all. -/
theorem excluded_member_task_still_submitted :
    bC2.isInRooms subC2 ["x"] = true ∧
    (bC2.toAllLocal).tasksSubmitted = [subC2] ∧
    bC2.toAllDeliveries 5 ["x"] = [] := by
  refine ⟨?_, ?_, ?_⟩ <;> rfl

/-- C2 amended: for each member of the resolved room a delivery task is
submitted to the worker pool unconditionally; the submitted task checks
exclusion first (the short-circuiting isInRooms membership test) and
performs send only when the member is not excluded, so an excluded
member still causes a task submission but that task delivers nothing. -/
theorem fanout_submits_task_per_member (b : broadcaster) (data : Nat) (name : String)
    (except : List String) (s : Subscription) (r : room)
    (hr : b.lookupRoom name = some r) (hs : s ∈ r.subscriptions) :
    s ∈ (b.toRoomLocal name).tasksSubmitted ∧
    (b.isInRooms s except = true → b.deliveryTask data s except = none) ∧
    (b.isInRooms s except = false → b.deliveryTask data s except = some (s, data)) ∧
    (name = b.defaultRoomName → s ∈ (b.toAllLocal).tasksSubmitted) := by
  refine ⟨mem_toRoomLocal_tasks.mpr ⟨r, hr, hs⟩, ?_, ?_, ?_⟩
  · intro hex
    unfold broadcaster.deliveryTask
    rw [if_pos hex]
  · intro hex
    unfold broadcaster.deliveryTask
    rw [if_neg (by simp [hex])]
  · intro hname
    exact mem_toAllLocal_tasks.mpr ⟨r, hname ▸ hr, hs⟩

/-- Witness for fanout_submits_task_per_member at the concrete
broadcaster bC2 with its default room and except list ["x"]. -/
theorem fanout_submits_task_per_member_witness :
    (bC2.lookupRoom "default" = some (room.mk [subC2]) ∧
      subC2 ∈ (room.mk [subC2]).subscriptions) ∧
    (subC2 ∈ (bC2.toRoomLocal "default").tasksSubmitted ∧
      (bC2.isInRooms subC2 ["x"] = true → bC2.deliveryTask 5 subC2 ["x"] = none) ∧
      (bC2.isInRooms subC2 ["x"] = false →
        bC2.deliveryTask 5 subC2 ["x"] = some (subC2, 5)) ∧
      ("default" = bC2.defaultRoomName → subC2 ∈ (bC2.toAllLocal).tasksSubmitted)) :=
  ⟨⟨rfl, by simp⟩,
    fanout_submits_task_per_member bC2 5 "default" ["x"] subC2 (room.mk [subC2])
      rfl (by simp)⟩

/-- C10: when the target room name itself appears in the except list,
every member of the resolved room passes the exclusion test (it is a
member of an except room, namely the room itself), so toRoom delivers to
nobody. -/
theorem toRoom_excepting_itself_delivers_nothing (b : broadcaster) (data : Nat)
    (name : String) (except : List String) (h : name ∈ except) :
    b.toRoomDeliveries data name except = [] := by
  unfold broadcaster.toRoomDeliveries
  rw [List.filterMap_eq_nil_iff]
  intro a ha
  obtain ⟨r, hr, har⟩ := mem_toRoomLocal_tasks.mp ha
  unfold broadcaster.deliveryTask
  rw [if_pos (isInRooms_iff.mpr ⟨name, h, r, hr, a, har, rfl⟩)]

/-- Witness for toRoom_excepting_itself_delivers_nothing: room "x" of
bC2 has a member, yet excluding "x" itself delivers to nobody. -/
theorem toRoom_excepting_itself_delivers_nothing_witness :
    ("x" ∈ ["x"]) ∧ bC2.toRoomDeliveries 7 "x" ["x"] = [] :=
  ⟨by simp, toRoom_excepting_itself_delivers_nothing bC2 7 "x" ["x"] (by simp)⟩

/-- A subscription looked up by an id it does not contain is absent. -/
lemma room.mem_addSubscription_of_not_found (r : room) (sub : Subscription)
    (h : r.lookup sub.id = none) : sub ∈ (r.addSubscription sub).subscriptions := by
  unfold room.addSubscription
  rw [h]
  simp

/-- C7: Subscribe never fails (it is a total function), returns a
subscription carrying the given callback and a fresh id distinct from
every id already stored in any room, and immediately afterwards the
returned subscription is a member of the default room of the new
state, hence reachable by toAll. -/
theorem subscribe_fresh_and_joined (b : broadcaster) (cb : Nat) (h : idsFresh b = true) :
    (b.Subscribe cb).2.callback = cb ∧
    (b.Subscribe cb).2.id = b.nextId ∧
    (∀ p ∈ b.rooms, ∀ t ∈ p.2.subscriptions, t.id ≠ (b.Subscribe cb).2.id) ∧
    (∃ dr, (b.Subscribe cb).1.lookupRoom b.defaultRoomName = some dr ∧
      (b.Subscribe cb).2 ∈ dr.subscriptions) := by
  refine ⟨rfl, rfl, ?_, ?_⟩
  · intro p hp t ht
    have h1 : ∀ x ∈ p.2.subscriptions, x.id < b.nextId := by
      have h0 := List.all_eq_true.mp h p hp
      simpa using h0
    exact Nat.ne_of_lt (h1 t ht)
  · show ∃ dr, (broadcaster.joinOne { b with nextId := b.nextId + 1 } ⟨b.nextId, cb⟩
        b.defaultRoomName).lookupRoom b.defaultRoomName = some dr ∧
      (⟨b.nextId, cb⟩ : Subscription) ∈ dr.subscriptions
    unfold broadcaster.joinOne
    cases hb : ({ b with nextId := b.nextId + 1 } : broadcaster).lookupRoom
        b.defaultRoomName with
    | some X0 =>
      obtain ⟨p, hfind, hp2⟩ := Option.map_eq_some'.mp hb
      have hmem : p ∈ b.rooms := List.mem_of_find?_eq_some hfind
      have hnone : X0.lookup (⟨b.nextId, cb⟩ : Subscription).id = none := by
        have h1 : ∀ x ∈ p.2.subscriptions, x.id < b.nextId := by
          have h0 := List.all_eq_true.mp h p hmem
          simpa using h0
        unfold room.lookup
        refine List.find?_eq_none.mpr ?_
        intro x hx
        have hlt : x.id < b.nextId := h1 x (by rw [hp2]; exact hx)
        simp
        omega
      exact ⟨X0.addSubscription ⟨b.nextId, cb⟩,
        broadcaster.lookupRoom_setRoom_self _ _ _,
        room.mem_addSubscription_of_not_found X0 ⟨b.nextId, cb⟩ hnone⟩
    | none =>
      exact ⟨(room.mk []).addSubscription ⟨b.nextId, cb⟩,
        broadcaster.lookupRoom_setRoom_self _ _ _,
        room.mem_addSubscription_of_not_found (room.mk []) ⟨b.nextId, cb⟩ rfl⟩

/-- Witness for subscribe_fresh_and_joined on a broadcaster fresh from
New (no rooms, counter at zero). -/
theorem subscribe_fresh_and_joined_witness :
    idsFresh initialBroadcaster = true ∧
    ((initialBroadcaster.Subscribe 5).2.callback = 5 ∧
      (initialBroadcaster.Subscribe 5).2.id = initialBroadcaster.nextId ∧
      (∀ p ∈ initialBroadcaster.rooms, ∀ t ∈ p.2.subscriptions,
        t.id ≠ (initialBroadcaster.Subscribe 5).2.id) ∧
      (∃ dr, (initialBroadcaster.Subscribe 5).1.lookupRoom
            initialBroadcaster.defaultRoomName = some dr ∧
        (initialBroadcaster.Subscribe 5).2 ∈ dr.subscriptions)) :=
  ⟨rfl, subscribe_fresh_and_joined initialBroadcaster 5 rfl⟩

end Broadcast
